import Mathlib

/-!
Verification of the `redtable` Redis client (package `redtable`, file
`client.go`, pooled version).  The Go source is shallowly embedded:

* `RVal` models Go `interface{}` values as they cross the redigo wire
  boundary (int64 replies, byte-string replies, Go strings, bools, nil,
  and reply lists).
* `ConnSt` models a `redis.Conn` as observed by this client: only its
  sticky error status matters (`Err()`, and `Send`/`Do` failing with the
  same error on a redigo `errorConn`).
* `PoolSt` models the relevant observable state of a `redis.Pool`:
  whether `Close` has been called, the error `Close` reports, and the
  error (if any) a fresh `Get` would carry (a broken dialer).
* `ClientState` mirrors the fields of `Client`: the `closeOnce` guard,
  the `connMu` mutex (held/free; `sync.Mutex` is not reentrant, so a
  `Lock` while the same call chain already holds it blocks forever,
  modelled as the `none`/`Outcome.blocked` result), `_curConn`, `pool`.
* `Remote` models the external Redis store: a state plus the function
  giving the raw `EXEC` reply for a queued batch.  `redisRemote` is the
  honest Redis semantics for the hash commands; other `Remote`s model a
  misbehaving or differently-typed store, which the spec treats as an
  external collaborator.
* Go functions returning `(value, error)` become `Outcome`; a run-time
  panic (out-of-range index, failed type assertion) is `Outcome.panicked`.
-/

namespace Redtable

/-- Errors observable from the client, mirroring the Go error values:
`ErrConnectionAlreadyClosed`, redigo's get-on-closed-pool error,
`errInvalidRedisURLs`, dial failures, sticky connection faults,
redigo `Values` decoding errors, `strconv` parse errors, and
redigo `ErrNil`. -/
inductive RError where
  | connectionAlreadyClosed
  | poolClosed
  | invalidRedisURLs
  | dialFail (msg : String)
  | connFault (msg : String)
  | decode (msg : String)
  | parse (msg : String)
  | errNil
  deriving DecidableEq, Repr

/-- A Go `interface{}` value at the redigo boundary. `bytes` is a Go
`[]byte` (bulk-string replies), `str` a Go `string`, `int` an `int64`. -/
inductive RVal where
  | nil
  | int (n : Int)
  | str (s : String)
  | bytes (bs : List Nat)
  | bool (b : Bool)
  deriving DecidableEq, Repr

/-- The raw reply `conn.Do("EXEC")` hands to `redis.Values`: either an
array reply (one element per queued command) or a non-array value. -/
inductive RawReply where
  | value (v : RVal)
  | values (vs : List RVal)
  deriving DecidableEq, Repr

/-- Result of a Go call returning `(value, error)`: success, a non-nil
error, a run-time panic, or blocking forever on a mutex. -/
inductive Outcome (α : Type) where
  | ok (val : α)
  | fail (e : RError)
  | panicked (msg : String)
  | blocked
  deriving DecidableEq, Repr

/-- A wire interaction emitted by the client: the begin-transaction
marker (`Send("MULTI")`), a queued command (`Send(op, args...)`), or the
transaction trigger (`Do("EXEC")`). -/
inductive Wire where
  | multi
  | send (opName : String) (args : List RVal)
  | exec
  deriving DecidableEq, Repr

/-- A `redis.Conn` as the client observes it: `err` is the sticky error
returned by `Err()` and by `Send`/`Do` on a redigo error connection. -/
structure ConnSt where
  err : Option RError
  deriving DecidableEq, Repr

/-- The observable state of the `redis.Pool` held by the client:
`closed` is set by `Pool.Close`; `teardownErr` is what `Pool.Close`
reports; `dialErr` is the error a fresh `Get` would carry when the
dialer is broken. -/
structure PoolSt where
  closed : Bool
  teardownErr : Option RError
  dialErr : Option RError
  deriving DecidableEq, Repr

/-- `Pool.Get`: on a closed pool redigo hands back an error connection
carrying the get-on-closed-pool error; otherwise the dial outcome. -/
def PoolSt.get (p : PoolSt) : ConnSt :=
  if p.closed then { err := some RError.poolClosed }
  else { err := p.dialErr }

/-- `Pool.Close`: marks the pool closed and reports the teardown result. -/
def PoolSt.close (p : PoolSt) : PoolSt × Option RError :=
  ({ p with closed := true }, p.teardownErr)

/-- The fields of `Client`: the `closeOnce` one-shot guard (`true` once
its function has run), whether `connMu` is currently held, the borrowed
connection `_curConn`, and the pool. -/
structure ClientState where
  closeOnceDone : Bool
  connMuHeld : Bool
  curConn : Option ConnSt
  pool : PoolSt
  deriving DecidableEq, Repr

/-- `Client.Close`:
`err` starts as `ErrConnectionAlreadyClosed`; `closeOnce.Do` overwrites
it with `pool.Close()`'s result on the first call only. -/
def ClientState.Close (c : ClientState) : ClientState × Option RError :=
  if c.closeOnceDone then (c, some RError.connectionAlreadyClosed)
  else
    let pc := c.pool.close
    ({ c with closeOnceDone := true, pool := pc.1 }, pc.2)

/-- `Client.conn`: locks `connMu` (blocking forever — result `none` —
if this call chain already holds it, since `sync.Mutex` is not
reentrant), lazily borrows from the pool when `_curConn` is nil, reuses
a healthy held connection, and on a fault closes the held connection,
clears `_curConn` and recursively re-enters itself while the deferred
unlock is still pending. -/
def ClientState.conn (c : ClientState) : Option (ClientState × ConnSt) :=
  if c.connMuHeld then none
  else
    let c1 : ClientState := { c with connMuHeld := true }
    match c1.curConn with
    | none =>
      let cn := c1.pool.get
      some ({ c1 with curConn := some cn, connMuHeld := false }, cn)
    | some cn =>
      if cn.err = none then
        some ({ c1 with connMuHeld := false }, cn)
      else
        ClientState.conn { c1 with curConn := none }
termination_by (if c.connMuHeld then 0 else 1 : Nat)
decreasing_by simp_all

/-- `Client.ConnErr`: under `connMu` (blocked — `none` — when already
held), reports the held connection's `Err()`, or nil when no connection
is held.  The inner `Option RError` is the returned Go error. -/
def ClientState.ConnErr (c : ClientState) : Option (Option RError) :=
  if c.connMuHeld then none
  else
    some (match c.curConn with
          | some cn => cn.err
          | none => none)

/-- `New`'s endpoint loop: try each URL in order with the dialer; on a
dial error `continue`; on success close the probe connection and keep
that URL's dial function.  Returns the first URL that dialled. -/
def findDialFn (dial : String → Option RError) : List String → Option String
  | [] => none
  | srvURL :: rest =>
    match dial srvURL with
    | some _ => findDialFn dial rest
    | none => some srvURL

/-- `New(redisServerURLs...)`: runs the endpoint loop; if no URL
dialled (`dialFn == nil`) fails with `errInvalidRedisURLs`, otherwise
builds a client around a fresh pool for the found dialer.  `dial` is
the ambient network behaviour of `redis.DialURL`. -/
def New (dial : String → Option RError) (redisServerURLs : List String) :
    Except RError ClientState :=
  match findDialFn dial redisServerURLs with
  | none => Except.error RError.invalidRedisURLs
  | some _ =>
    Except.ok
      { closeOnceDone := false
        connMuHeld := false
        curConn := none
        pool := { closed := false, teardownErr := none, dialErr := none } }

/-! ### The external Redis store

The spec treats the remote store as an external collaborator; the hash
commands the claims exercise are modelled honestly (`redisExec`), and a
`Remote` may also represent a misbehaving store whose `EXEC` reply has
the wrong shape. -/

/-- redigo's `writeArg` serialization of a command argument onto the
wire: strings and byte slices go as-is, int64 in decimal, bools as
`"1"`/`"0"`, nil as the empty bulk string. -/
def writeArg : RVal → String
  | RVal.nil => ""
  | RVal.int n => toString n
  | RVal.str s => s
  | RVal.bytes bs => String.mk (bs.map Char.ofNat)
  | RVal.bool b => if b then "1" else "0"

/-- A Redis hash: field/value pairs, fields unique by construction. -/
abbrev Table := List (String × String)

/-- The remote keyspace: collection name to hash table. -/
abbrev Store := List (String × Table)

def tableLookup : Table → String → Option String
  | [], _ => none
  | (k, v) :: rest, f => if k = f then some v else tableLookup rest f

def tableSet : Table → String → String → Table
  | [], f, v => [(f, v)]
  | (k, w) :: rest, f, v =>
    if k = f then (k, v) :: rest else (k, w) :: tableSet rest f v

def tableRemove : Table → String → Table
  | [], _ => []
  | (k, v) :: rest, f =>
    if k = f then tableRemove rest f else (k, v) :: tableRemove rest f

def storeTable : Store → String → Table
  | [], _ => []
  | (t, tbl) :: rest, name => if t = name then tbl else storeTable rest name

def storeUpdate : Store → String → Table → Store
  | [], name, tbl => [(name, tbl)]
  | (t, old) :: rest, name, tbl =>
    if t = name then (t, tbl) :: rest else (t, old) :: storeUpdate rest name tbl

/-- Bytes of a stored value as returned in a bulk-string reply. -/
def strToBytes (s : String) : List Nat := s.data.map Char.toNat

/-- One Redis hash command applied to the store, returning the new
store and the command's reply: `HSET` replies 1 for a new field and 0
for an overwrite, `HGET` a bulk string or nil, `HDEL` the number of
fields removed, `HEXISTS` 0/1, `HLEN` the field count.  Commands other
than the hash commands the claims exercise are not modelled and reply
nil without touching the store. -/
def execCmd (st : Store) : String × List RVal → Store × RVal
  | ("HSET", [t, f, v]) =>
    let tn := writeArg t
    let tbl := storeTable st tn
    let fs := writeArg f
    let isNew := (tableLookup tbl fs).isNone
    (storeUpdate st tn (tableSet tbl fs (writeArg v)),
     RVal.int (if isNew then 1 else 0))
  | ("HGET", [t, f]) =>
    (st,
     match tableLookup (storeTable st (writeArg t)) (writeArg f) with
     | some v => RVal.bytes (strToBytes v)
     | none => RVal.nil)
  | ("HDEL", [t, f]) =>
    let tn := writeArg t
    let tbl := storeTable st tn
    let fs := writeArg f
    let removed : Int := if (tableLookup tbl fs).isSome then 1 else 0
    (storeUpdate st tn (tableRemove tbl fs), RVal.int removed)
  | ("HEXISTS", [t, f]) =>
    (st,
     RVal.int
       (if (tableLookup (storeTable st (writeArg t)) (writeArg f)).isSome
        then 1 else 0))
  | ("HLEN", [t]) => (st, RVal.int (storeTable st (writeArg t)).length)
  | (_, _) => (st, RVal.nil)

/-- A `MULTI`/`EXEC` batch applied atomically: one reply per queued
command, in order. -/
def execBatch (st : Store) : List (String × List RVal) → Store × List RVal
  | [] => (st, [])
  | c :: cs =>
    let r1 := execCmd st c
    let rs := execBatch r1.1 cs
    (rs.1, r1.2 :: rs.2)

/-- The external store as the client sees it: its current keyspace and
the function producing the raw `EXEC` reply for a queued batch. -/
structure Remote where
  store : Store
  execFn : Store → List (String × List RVal) → Store × RawReply

/-- The honest Redis behaviour: run the batch atomically and reply with
the array of per-command replies. -/
def redisExec (st : Store) (cmds : List (String × List RVal)) : Store × RawReply :=
  let r := execBatch st cmds
  (r.1, RawReply.values r.2)

def redisRemote (st : Store) : Remote := { store := st, execFn := redisExec }

/-- `redis.Values`: an array reply unpacks to its elements, a nil reply
is `ErrNil`, anything else is a type error. -/
def redisValues : RawReply → Except RError (List RVal)
  | RawReply.values vs => Except.ok vs
  | RawReply.value RVal.nil => Except.error RError.errNil
  | RawReply.value _ => Except.error (RError.decode "unexpected type for Values")

/-! ### `fmt.Sprintf` and `strconv` helpers used by the facade -/

/-- Go `fmt.Sprintf` with verb `%v` on the reply values that appear here:
int64 in decimal, string as-is, `[]byte` as a bracketed list of byte
values, bools as `true`/`false`, nil interface as `<nil>`. -/
def sprintfV : RVal → String
  | RVal.nil => "<nil>"
  | RVal.int n => toString n
  | RVal.str s => s
  | RVal.bytes bs => "[" ++ String.intercalate " " (bs.map toString) ++ "]"
  | RVal.bool b => if b then "true" else "false"

/-- Go `strconv.ParseInt(s, 10, 64)`: optional sign, decimal digits,
64-bit range check; anything else is a parse error. -/
def parseIntGo (s : String) : Except RError Int :=
  match s.data with
  | [] => Except.error (RError.parse s)
  | c :: rest =>
    let signDigits : Bool × List Char :=
      if c = '-' then (true, rest)
      else if c = '+' then (false, rest)
      else (false, c :: rest)
    let neg := signDigits.1
    let digits := signDigits.2
    if digits = [] then Except.error (RError.parse s)
    else if digits.all Char.isDigit then
      let n : Nat := digits.foldl (fun acc d => acc * 10 + (d.toNat - 48)) 0
      if neg then
        if n ≤ 2 ^ 63 then Except.ok (-(n : Int))
        else Except.error (RError.parse s)
      else
        if n ≤ 2 ^ 63 - 1 then Except.ok (n : Int)
        else Except.error (RError.parse s)
    else Except.error (RError.parse s)

/-- Go `strconv.ParseBool`: accepts exactly `1,t,T,TRUE,true,True` and
`0,f,F,FALSE,false,False`. -/
def parseBoolGo (s : String) : Except RError Bool :=
  if s = "1" ∨ s = "t" ∨ s = "T" ∨ s = "TRUE" ∨ s = "true" ∨ s = "True" then
    Except.ok true
  else if s = "0" ∨ s = "f" ∨ s = "F" ∨ s = "FALSE" ∨ s = "false" ∨ s = "False" then
    Except.ok false
  else Except.error (RError.parse s)

/-! ### The atomic batch executor and the command facade -/

/-- Command-name constants of `client.go`. -/
def opMulti := "MULTI"
def opHGet := "HGET"
def opHMGet := "HMGET"
def opHDel := "HDEL"
def opHLen := "HLEN"
def opHSet := "HSET"
def opHKeys := "HKEYS"
def opHExists := "HEXISTS"
def opExec := "EXEC"
def opDel := "DEL"
def opLLen := "LLEN"
def opLPush := "LPUSH"
def opLPop := "LPOP"
def opLIndex := "LINDEX"
def opSAdd := "SADD"
def opSPop := "SPOP"
def opSRem := "SREM"
def opSMembers := "SMEMBERS"
def opSIsMember := "SISMEMBER"

/-- The full observable effect of one facade call: the client state and
remote store afterwards, the wire interactions emitted (`Wire.multi` is
`Send(opMulti)`, `Wire.exec` is `Do(opExec)`), and the Go return. -/
structure OpResult (α : Type) where
  client : ClientState
  remote : Remote
  trace : List Wire
  result : Outcome α

/-- `Client.doHashOp`: `c.conn().Send(MULTI)`, then
`c.conn().Send(opName, hashTableName, args...)`, then
`redis.Values(c.conn().Do(EXEC))`.  Each of the three `c.conn()` calls
may block (faulted held connection, see `ClientState.conn`); a `Send`
or `Do` on an error connection fails with its sticky error.  There is
no already-closed check in this version of the code. -/
def ClientState.doHashOp (c : ClientState) (r : Remote) (opName hashTableName : String)
    (args : List RVal) : OpResult (List RVal) :=
  match c.conn with
  | none => { client := c, remote := r, trace := [], result := Outcome.blocked }
  | some (c1, cn1) =>
    match cn1.err with
    | some e => { client := c1, remote := r, trace := [], result := Outcome.fail e }
    | none =>
      match c1.conn with
      | none =>
        { client := c1, remote := r, trace := [Wire.multi], result := Outcome.blocked }
      | some (c2, cn2) =>
        match cn2.err with
        | some e =>
          { client := c2, remote := r, trace := [Wire.multi], result := Outcome.fail e }
        | none =>
          let allArgs := RVal.str hashTableName :: args
          match c2.conn with
          | none =>
            { client := c2, remote := r
              trace := [Wire.multi, Wire.send opName allArgs]
              result := Outcome.blocked }
          | some (c3, cn3) =>
            match cn3.err with
            | some e =>
              { client := c3, remote := r
                trace := [Wire.multi, Wire.send opName allArgs]
                result := Outcome.fail e }
            | none =>
              let er := r.execFn r.store [(opName, allArgs)]
              { client := c3
                remote := { r with store := er.1 }
                trace := [Wire.multi, Wire.send opName allArgs, Wire.exec]
                result :=
                  match redisValues er.2 with
                  | Except.ok vs => Outcome.ok vs
                  | Except.error e => Outcome.fail e }

def multiKeysOp (c : ClientState) (r : Remote) (opName hashTableName : String)
    (keys : List RVal) : OpResult (List RVal) :=
  c.doHashOp r opName hashTableName keys

/-- `byKeyOp`: unpack `replies[0]` of a `multiKeysOp`; on an empty
reply slice the Go index expression panics. -/
def byKeyOp (c : ClientState) (r : Remote) (opName hashTableName : String)
    (keys : List RVal) : OpResult RVal :=
  let o := multiKeysOp c r opName hashTableName keys
  { client := o.client, remote := o.remote, trace := o.trace
    result :=
      match o.result with
      | Outcome.ok [] => Outcome.panicked "runtime error: index out of range"
      | Outcome.ok (v :: _) => Outcome.ok v
      | Outcome.fail e => Outcome.fail e
      | Outcome.panicked m => Outcome.panicked m
      | Outcome.blocked => Outcome.blocked }

/-- `Client.HSet`: `doHashOp(HSET, t, key, value)` then `replies[0]`. -/
def ClientState.HSet (c : ClientState) (r : Remote) (hashTableName : String)
    (key value : RVal) : OpResult RVal :=
  let o := c.doHashOp r opHSet hashTableName [key, value]
  { client := o.client, remote := o.remote, trace := o.trace
    result :=
      match o.result with
      | Outcome.ok [] => Outcome.panicked "runtime error: index out of range"
      | Outcome.ok (v :: _) => Outcome.ok v
      | Outcome.fail e => Outcome.fail e
      | Outcome.panicked m => Outcome.panicked m
      | Outcome.blocked => Outcome.blocked }

def ClientState.HGet (c : ClientState) (r : Remote) (hashTableName : String)
    (key : RVal) : OpResult RVal :=
  byKeyOp c r opHGet hashTableName [key]

def ClientState.HMGet (c : ClientState) (r : Remote) (hashTableName : String)
    (keys : List RVal) : OpResult (List RVal) :=
  c.doHashOp r opHMGet hashTableName keys

def ClientState.HDel (c : ClientState) (r : Remote) (hashTableName : String)
    (key : RVal) : OpResult RVal :=
  byKeyOp c r opHDel hashTableName [key]

/-- `Client.HPop`: `HGet` then `HDel`, each its own `MULTI`/`EXEC`
batch; the retrieved value is returned once the delete succeeds. -/
def ClientState.HPop (c : ClientState) (r : Remote) (hashTableName : String)
    (key : RVal) : OpResult RVal :=
  let g := c.HGet r hashTableName key
  match g.result with
  | Outcome.ok retrieved =>
    let d := g.client.HDel g.remote hashTableName key
    { client := d.client, remote := d.remote, trace := g.trace ++ d.trace
      result :=
        match d.result with
        | Outcome.ok _ => Outcome.ok retrieved
        | Outcome.fail e => Outcome.fail e
        | Outcome.panicked m => Outcome.panicked m
        | Outcome.blocked => Outcome.blocked }
  | _ => g

/-- `Client.HMove`: `HPop` from the first table then `HSet` into the
second; two further independent batches. -/
def ClientState.HMove (c : ClientState) (r : Remote)
    (hashTableName1 hashTableName2 : String) (key : RVal) : OpResult RVal :=
  let p := c.HPop r hashTableName1 key
  match p.result with
  | Outcome.ok table1Entry =>
    let s := p.client.HSet p.remote hashTableName2 key table1Entry
    { client := s.client, remote := s.remote, trace := p.trace ++ s.trace
      result :=
        match s.result with
        | Outcome.ok _ => Outcome.ok table1Entry
        | Outcome.fail e => Outcome.fail e
        | Outcome.panicked m => Outcome.panicked m
        | Outcome.blocked => Outcome.blocked }
  | _ => p

def ClientState.HKeys (c : ClientState) (r : Remote) (hashTableName : String) :
    OpResult (List RVal) :=
  c.doHashOp r opHKeys hashTableName []

/-- `Client.HLen`: `replies[0]`; a direct `int64` type assertion, with
`strconv.ParseInt(fmt.Sprintf(..), 10, 64)` as fallback.  (Go returns
the `(value, error)` pair of `ParseInt`; the error dominates here.) -/
def ClientState.HLen (c : ClientState) (r : Remote) (hashTableName : String) :
    OpResult Int :=
  let o := c.doHashOp r opHLen hashTableName []
  { client := o.client, remote := o.remote, trace := o.trace
    result :=
      match o.result with
      | Outcome.ok [] => Outcome.panicked "runtime error: index out of range"
      | Outcome.ok (first :: _) =>
        match first with
        | RVal.int count => Outcome.ok count
        | _ =>
          match parseIntGo (sprintfV first) with
          | Except.ok n => Outcome.ok n
          | Except.error e => Outcome.fail e
      | Outcome.fail e => Outcome.fail e
      | Outcome.panicked m => Outcome.panicked m
      | Outcome.blocked => Outcome.blocked }

def ClientState.Del (c : ClientState) (r : Remote) (firstTable : String)
    (otherTables : List RVal) : OpResult RVal :=
  byKeyOp c r opDel firstTable otherTables

/-- `Client.HExists`: `replies[0]`; a direct `bool` type assertion,
with `strconv.ParseBool(fmt.Sprintf(..))` as fallback. -/
def ClientState.HExists (c : ClientState) (r : Remote) (hashTableName : String)
    (key : RVal) : OpResult Bool :=
  let o := c.doHashOp r opHExists hashTableName [key]
  { client := o.client, remote := o.remote, trace := o.trace
    result :=
      match o.result with
      | Outcome.ok [] => Outcome.panicked "runtime error: index out of range"
      | Outcome.ok (first :: _) =>
        match first with
        | RVal.bool existance => Outcome.ok existance
        | _ =>
          match parseBoolGo (sprintfV first) with
          | Except.ok b => Outcome.ok b
          | Except.error e => Outcome.fail e
      | Outcome.fail e => Outcome.fail e
      | Outcome.panicked m => Outcome.panicked m
      | Outcome.blocked => Outcome.blocked }

def ClientState.LPush (c : ClientState) (r : Remote) (tableName : String)
    (values : List RVal) : OpResult RVal :=
  byKeyOp c r opLPush tableName values

def ClientState.LPop (c : ClientState) (r : Remote) (tableName : String) :
    OpResult RVal :=
  byKeyOp c r opLPop tableName []

/-- `Client.LLen`: an unchecked `res.(int64)` type assertion on the
unpacked reply — panics when the raw reply is not an int64. -/
def ClientState.LLen (c : ClientState) (r : Remote) (tableName : String) :
    OpResult Int :=
  let o := byKeyOp c r opLLen tableName []
  { client := o.client, remote := o.remote, trace := o.trace
    result :=
      match o.result with
      | Outcome.ok (RVal.int n) => Outcome.ok n
      | Outcome.ok _ => Outcome.panicked "interface conversion: interface is not int64"
      | Outcome.fail e => Outcome.fail e
      | Outcome.panicked m => Outcome.panicked m
      | Outcome.blocked => Outcome.blocked }

def ClientState.LIndex (c : ClientState) (r : Remote) (tableName : String)
    (index : Int) : OpResult RVal :=
  byKeyOp c r opLIndex tableName [RVal.int index]

def ClientState.SAdd (c : ClientState) (r : Remote) (tableName : String)
    (items : List RVal) : OpResult RVal :=
  byKeyOp c r opSAdd tableName items

def ClientState.SMembers (c : ClientState) (r : Remote) (tableName : String) :
    OpResult RVal :=
  byKeyOp c r opSMembers tableName []

/-- `Client.SIsMember`: an unchecked `retr.(int64)` type assertion,
then `value >= 1` — panics when the raw reply is not an int64. -/
def ClientState.SIsMember (c : ClientState) (r : Remote) (tableName : String)
    (key : RVal) : OpResult Bool :=
  let o := byKeyOp c r opSIsMember tableName [key]
  { client := o.client, remote := o.remote, trace := o.trace
    result :=
      match o.result with
      | Outcome.ok (RVal.int value) => Outcome.ok (decide (1 ≤ value))
      | Outcome.ok _ => Outcome.panicked "interface conversion: interface is not int64"
      | Outcome.fail e => Outcome.fail e
      | Outcome.panicked m => Outcome.panicked m
      | Outcome.blocked => Outcome.blocked }

def ClientState.SPop (c : ClientState) (r : Remote) (tableName : String) :
    OpResult RVal :=
  byKeyOp c r opSPop tableName []

def ClientState.SRem (c : ClientState) (r : Remote) (tableName : String)
    (key : RVal) (otherKeys : List RVal) : OpResult RVal :=
  byKeyOp c r opSRem tableName (key :: otherKeys)

/-- A client whose next operation proceeds on a healthy connection:
the mutex is free and either a healthy connection is held, or none is
held and the open pool would hand out a healthy one. -/
def ClientState.healthy (c : ClientState) : Bool :=
  match c.connMuHeld, c.curConn with
  | false, some cn => cn.err.isNone
  | false, none => !c.pool.closed && c.pool.dialErr.isNone
  | true, _ => false

/-! ### Test fixtures: concrete clients and remotes -/

/-- The client `New` builds: nothing borrowed yet, open pool. -/
def freshClient : ClientState :=
  { closeOnceDone := false, connMuHeld := false, curConn := none
    pool := { closed := false, teardownErr := none, dialErr := none } }

/-- A client currently holding a healthy borrowed connection. -/
def heldHealthyClient : ClientState :=
  { freshClient with curConn := some { err := none } }

/-- A client that was closed while still holding a healthy connection
(`Close` only closes the pool; see `close_frame`). -/
def closedHeldClient : ClientState :=
  { closeOnceDone := true, connMuHeld := false, curConn := some { err := none }
    pool := { closed := true, teardownErr := none, dialErr := none } }

/-- A closed client holding no connection. -/
def closedFreshClient : ClientState :=
  { closeOnceDone := true, connMuHeld := false, curConn := none
    pool := { closed := true, teardownErr := none, dialErr := none } }

/-- A client holding a connection with a sticky fault. -/
def faultedClient : ClientState :=
  { closeOnceDone := false, connMuHeld := false
    curConn := some { err := some (RError.connFault "broken pipe") }
    pool := { closed := false, teardownErr := none, dialErr := none } }

/-! ### Computation lemmas for `conn` and `doHashOp` -/

theorem conn_held_healthy (once : Bool) (p : PoolSt) :
    ClientState.conn
        { closeOnceDone := once, connMuHeld := false
          curConn := some { err := none }, pool := p } =
      some
        ({ closeOnceDone := once, connMuHeld := false
           curConn := some { err := none }, pool := p },
         { err := none }) := by
  rw [ClientState.conn]
  simp

theorem conn_fresh (once : Bool) (te : Option RError) :
    ClientState.conn
        { closeOnceDone := once, connMuHeld := false, curConn := none
          pool := { closed := false, teardownErr := te, dialErr := none } } =
      some
        ({ closeOnceDone := once, connMuHeld := false
           curConn := some { err := none }
           pool := { closed := false, teardownErr := te, dialErr := none } },
         { err := none }) := by
  rw [ClientState.conn]
  simp [PoolSt.get]

/-- On a healthy client every run of the batch executor returns to the
same shape: the client holds one healthy connection, the remote has
executed the single-command batch, the trace is the full envelope, and
the result is the unpacked `EXEC` reply. -/
theorem doHashOp_healthy (c : ClientState) (r : Remote) (op t : String)
    (args : List RVal) (h : c.healthy = true) :
    c.doHashOp r op t args =
      { client := { c with curConn := some { err := none }, connMuHeld := false }
        remote := { r with store := (r.execFn r.store [(op, RVal.str t :: args)]).1 }
        trace := [Wire.multi, Wire.send op (RVal.str t :: args), Wire.exec]
        result :=
          match redisValues (r.execFn r.store [(op, RVal.str t :: args)]).2 with
          | Except.ok vs => Outcome.ok vs
          | Except.error e => Outcome.fail e } := by
  obtain ⟨once, mu, cur, pool⟩ := c
  match mu, cur with
  | true, _ => simp [ClientState.healthy] at h
  | false, some cn =>
    obtain ⟨cnErr⟩ := cn
    simp [ClientState.healthy, Option.isNone_iff_eq_none] at h
    subst h
    simp [ClientState.doHashOp, conn_held_healthy]
  | false, none =>
    obtain ⟨closed, te, de⟩ := pool
    simp [ClientState.healthy, Option.isNone_iff_eq_none] at h
    obtain ⟨h1, h2⟩ := h
    subst h1; subst h2
    simp [ClientState.doHashOp, conn_fresh, conn_held_healthy]

/-! ### C1: one-shot close semantics -/

/-- C1: for every client not yet closed, the first `Close` performs the
pool teardown (marking the pool closed) and returns the teardown's
result, and every subsequent `Close` on a closed client returns
`ErrConnectionAlreadyClosed` and leaves the client unchanged, so the
teardown is never repeated. -/
theorem close_once_semantics (c : ClientState) (h : c.closeOnceDone = false) :
    (c.Close).2 = c.pool.teardownErr ∧
    (c.Close).1.pool.closed = true ∧
    (c.Close).1.closeOnceDone = true ∧
    (∀ c' : ClientState, c'.closeOnceDone = true →
       c'.Close = (c', some RError.connectionAlreadyClosed)) := by
  refine ⟨?_, ?_, ?_, ?_⟩
  · simp [ClientState.Close, PoolSt.close, h]
  · simp [ClientState.Close, PoolSt.close, h]
  · simp [ClientState.Close, h]
  · intro c' h'
    simp [ClientState.Close, h']

theorem close_once_semantics_witness :
    freshClient.closeOnceDone = false ∧
    ((freshClient.Close).2 = freshClient.pool.teardownErr ∧
     (freshClient.Close).1.pool.closed = true ∧
     (freshClient.Close).1.closeOnceDone = true ∧
     (∀ c' : ClientState, c'.closeOnceDone = true →
        c'.Close = (c', some RError.connectionAlreadyClosed))) :=
  ⟨by decide, close_once_semantics freshClient (by decide)⟩

/-! ### C9: Close leaves the borrowed connection untouched -/

/-- C9: `Close` modifies only the one-shot guard and the pool; the
borrowed-connection field `_curConn` (and the mutex) are unchanged, so
a connection held at close time remains held afterwards. -/
theorem close_frame (c : ClientState) :
    (c.Close).1.curConn = c.curConn ∧
    (c.Close).1.connMuHeld = c.connMuHeld := by
  by_cases h : c.closeOnceDone <;>
    simp [ClientState.Close, PoolSt.close, h]

/-! ### C10: ConnErr reports the held connection's fault status -/

/-- C10: with the mutex free, `ConnErr` returns nil when no connection
is held — in particular on any client `New` constructs — and returns
exactly the held connection's `Err()` otherwise (the outer `some` means
the call returns rather than blocks). -/
theorem connErr_spec (c : ClientState) (h : c.connMuHeld = false) :
    (c.curConn = none → c.ConnErr = some none) ∧
    (∀ cn : ConnSt, c.curConn = some cn → c.ConnErr = some cn.err) ∧
    (∀ (dial : String → Option RError) (urls : List String) (c0 : ClientState),
       New dial urls = Except.ok c0 → c0.ConnErr = some none) := by
  refine ⟨?_, ?_, ?_⟩
  · intro hc
    simp [ClientState.ConnErr, h, hc]
  · intro cn hc
    simp [ClientState.ConnErr, h, hc]
  · intro dial urls c0 hn
    unfold New at hn
    cases hfind : findDialFn dial urls with
    | none => rw [hfind] at hn; exact absurd hn (by simp)
    | some u =>
      rw [hfind] at hn
      cases hn
      rfl

theorem connErr_spec_witness :
    freshClient.connMuHeld = false ∧
    ((freshClient.curConn = none → freshClient.ConnErr = some none) ∧
     (∀ cn : ConnSt, freshClient.curConn = some cn →
        freshClient.ConnErr = some cn.err) ∧
     (∀ (dial : String → Option RError) (urls : List String) (c0 : ClientState),
        New dial urls = Except.ok c0 → c0.ConnErr = some none)) :=
  ⟨by decide, connErr_spec freshClient (by decide)⟩

/-! ### C8: the fault/discard/redial sequence deadlocks (code bug)

`Client.conn` detects the fault, closes the held connection, clears
`_curConn` and then calls itself again — but the deferred
`connMu.Unlock()` has not yet run, and Go's `sync.Mutex` is not
reentrant, so the inner `Lock` blocks forever.  The redial never
happens: the call never returns (`none` in the model), for every
faulted held connection, contradicting the spec's "retried exactly once
via transparent reconnection / guaranteed termination". -/

/-- C8 (code bug): whenever the held connection reports a fault, the
acquisition call deadlocks on its own mutex instead of terminating with
one retry. -/
theorem conn_fault_deadlocks (c : ClientState) (cn : ConnSt) (e : RError)
    (hmu : c.connMuHeld = false) (hcur : c.curConn = some cn)
    (herr : cn.err = some e) :
    c.conn = none := by
  obtain ⟨once, mu, cur, pool⟩ := c
  simp only at hmu hcur
  subst hmu; subst hcur
  rw [ClientState.conn]
  simp only [if_neg (by simp : ¬False)]
  simp [herr]
  rw [ClientState.conn]
  simp

theorem conn_fault_deadlocks_witness :
    faultedClient.connMuHeld = false ∧
    faultedClient.curConn = some { err := some (RError.connFault "broken pipe") } ∧
    ConnSt.err { err := some (RError.connFault "broken pipe") }
        = some (RError.connFault "broken pipe") ∧
    faultedClient.conn = none :=
  ⟨by decide, by decide, by decide,
   conn_fault_deadlocks faultedClient
     { err := some (RError.connFault "broken pipe") }
     (RError.connFault "broken pipe") (by decide) (by decide) (by decide)⟩

/-! ### C2: operations after Close are not rejected -/

theorem conn_fresh_closed (once : Bool) (te de : Option RError) :
    ClientState.conn
        { closeOnceDone := once, connMuHeld := false, curConn := none
          pool := { closed := true, teardownErr := te, dialErr := de } } =
      some
        ({ closeOnceDone := once, connMuHeld := false
           curConn := some { err := some RError.poolClosed }
           pool := { closed := true, teardownErr := te, dialErr := de } },
         { err := some RError.poolClosed }) := by
  rw [ClientState.conn]
  simp [PoolSt.get]

/-- C2 counterexample: on a client that has been closed but still holds
a healthy connection (`Close` leaves `_curConn` in place), `HSet`
executes and succeeds instead of failing with
`ErrConnectionAlreadyClosed`. -/
theorem hset_after_close_executes :
    (closedHeldClient.HSet (redisRemote []) "t" (RVal.str "k") (RVal.str "v")).result
        = Outcome.ok (RVal.int 1) ∧
    Outcome.ok (RVal.int 1) ≠ Outcome.fail RError.connectionAlreadyClosed := by
  constructor
  · have hd := doHashOp_healthy closedHeldClient (redisRemote []) opHSet "t"
      [RVal.str "k", RVal.str "v"] (by decide)
    simp [ClientState.HSet, hd]
    rfl
  · decide

/-- C2 amended: the pooled `doHashOp` performs no already-closed check.
After `Close`, an operation on a client still holding a healthy
connection emits the full wire envelope and executes; on a client
holding no connection it fails with redigo's get-on-closed-pool error —
in neither case with `ErrConnectionAlreadyClosed`. -/
theorem doHashOp_after_close (c : ClientState) (r : Remote) (op t : String)
    (args : List RVal) (hClosed : c.closeOnceDone = true)
    (hmu : c.connMuHeld = false) :
    (c.curConn = some { err := none } →
       (c.doHashOp r op t args).trace
         = [Wire.multi, Wire.send op (RVal.str t :: args), Wire.exec]) ∧
    (c.curConn = none → c.pool.closed = true →
       (c.doHashOp r op t args).result = Outcome.fail RError.poolClosed ∧
       (c.doHashOp r op t args).trace = []) := by
  obtain ⟨once, mu, cur, pool⟩ := c
  simp only at hClosed hmu
  subst hClosed; subst hmu
  constructor
  · intro hcur
    simp only at hcur
    subst hcur
    rw [doHashOp_healthy _ _ _ _ _ (by simp [ClientState.healthy])]
  · intro hcur hpool
    simp only at hcur hpool
    subst hcur
    obtain ⟨closed, te, de⟩ := pool
    simp only at hpool
    subst hpool
    simp [ClientState.doHashOp, conn_fresh_closed]

theorem doHashOp_after_close_witness :
    closedFreshClient.closeOnceDone = true ∧
    closedFreshClient.connMuHeld = false ∧
    ((closedFreshClient.curConn = some { err := none } →
        (closedFreshClient.doHashOp (redisRemote []) opHSet "t" []).trace
          = [Wire.multi, Wire.send opHSet [RVal.str "t"], Wire.exec]) ∧
     (closedFreshClient.curConn = none → closedFreshClient.pool.closed = true →
        (closedFreshClient.doHashOp (redisRemote []) opHSet "t" []).result
            = Outcome.fail RError.poolClosed ∧
        (closedFreshClient.doHashOp (redisRemote []) opHSet "t" []).trace = [])) :=
  ⟨by decide, by decide,
   doHashOp_after_close closedFreshClient (redisRemote []) opHSet "t" []
     (by decide) (by decide)⟩

/-! ### C3: New with only unreachable endpoints -/

/-- A dialer for which every endpoint fails with a distinctive error. -/
def alwaysRefusedDial : String → Option RError :=
  fun _ => some (RError.dialFail "connection refused")

/-- C3 counterexample: when every endpoint fails to dial, `New` returns
the fixed sentinel `errInvalidRedisURLs`, not the connection error of
the last attempted endpoint. -/
theorem new_all_fail_counterexample :
    New alwaysRefusedDial ["redis://a:6379", "redis://b:6379"]
        = Except.error RError.invalidRedisURLs ∧
    RError.invalidRedisURLs ≠ RError.dialFail "connection refused" := by
  constructor
  · rfl
  · decide

/-- C3 amended: for every non-empty-or-not endpoint list in which every
endpoint fails to dial, `New` fails with the generic
`errInvalidRedisURLs` sentinel; the individual dial errors are
discarded by the loop. -/
theorem new_all_fail_generic (dial : String → Option RError) (urls : List String)
    (h : ∀ u ∈ urls, dial u ≠ none) :
    New dial urls = Except.error RError.invalidRedisURLs := by
  have hf : findDialFn dial urls = none := by
    induction urls with
    | nil => rfl
    | cons u rest ih =>
      have hu := h u (List.mem_cons_self u rest)
      cases hd : dial u with
      | none => exact absurd hd hu
      | some e =>
        simp [findDialFn, hd]
        exact ih (fun v hv => h v (List.mem_cons_of_mem u hv))
  simp [New, hf]

theorem new_all_fail_generic_witness :
    (∀ u ∈ ["redis://x:6379"], alwaysRefusedDial u ≠ none) ∧
    New alwaysRefusedDial ["redis://x:6379"]
        = Except.error RError.invalidRedisURLs :=
  ⟨by intro u _; simp [alwaysRefusedDial],
   new_all_fail_generic _ _ (by intro u _; simp [alwaysRefusedDial])⟩

/-! ### C4: the three-interaction batch protocol -/

/-- C4: on a healthy client, a facade operation with collection name
`t` and arguments `args` emits exactly three wire interactions in
order — the begin-transaction marker, one queued command whose argument
list is `t :: args`, and the execute trigger — and the batch's reply
list is returned as the operation's raw result. -/
theorem doHashOp_protocol (c : ClientState) (st : Store) (op t : String)
    (args : List RVal) (h : c.healthy = true) :
    (c.doHashOp (redisRemote st) op t args).trace
        = [Wire.multi, Wire.send op (RVal.str t :: args), Wire.exec] ∧
    (c.doHashOp (redisRemote st) op t args).result
        = Outcome.ok (execBatch st [(op, RVal.str t :: args)]).2 := by
  rw [doHashOp_healthy c (redisRemote st) op t args h]
  exact ⟨rfl, by simp [redisRemote, redisExec, redisValues]⟩

theorem doHashOp_protocol_witness :
    heldHealthyClient.healthy = true ∧
    ((heldHealthyClient.doHashOp (redisRemote []) opHSet "t"
        [RVal.str "k", RVal.str "v"]).trace
       = [Wire.multi, Wire.send opHSet [RVal.str "t", RVal.str "k", RVal.str "v"],
          Wire.exec] ∧
     (heldHealthyClient.doHashOp (redisRemote []) opHSet "t"
        [RVal.str "k", RVal.str "v"]).result
       = Outcome.ok
           (execBatch [] [(opHSet, [RVal.str "t", RVal.str "k", RVal.str "v"])]).2) :=
  ⟨by decide,
   doHashOp_protocol heldHealthyClient [] opHSet "t"
     [RVal.str "k", RVal.str "v"] (by decide)⟩

/-! ### C5: mismatched reply shapes -/

/-- A store whose raw `EXEC` reply is a fixed value regardless of the
batch — the external collaborator misbehaving or replying with an
unexpected shape. -/
def shapeRemote (st : Store) (rep : RawReply) : Remote :=
  { store := st, execFn := fun s _ => (s, rep) }

/-- C5 counterexample: when the store's reply to the one-command batch
is an empty reply list, `HSet` panics on the `replies[0]` index instead
of failing with a decoding error. -/
theorem hset_empty_reply_panics :
    (freshClient.HSet (shapeRemote [] (RawReply.values [])) "t"
        (RVal.str "k") (RVal.str "v")).result
      = Outcome.panicked "runtime error: index out of range" := by
  have hd := doHashOp_healthy freshClient (shapeRemote [] (RawReply.values []))
    opHSet "t" [RVal.str "k", RVal.str "v"] (by decide)
  simp only [ClientState.HSet, hd]
  simp [shapeRemote, redisValues]

/-- C5 amended: a reply that is not a list at all fails with the
decoding error from `redis.Values`, but a reply list of the wrong arity
— in particular the empty list where one element is expected — makes
the single-result operations panic on `replies[0]` rather than return
an error. -/
theorem byKeyOp_reply_shape (c : ClientState) (st : Store) (op t : String)
    (keys : List RVal) (v : RVal) (h : c.healthy = true) (hv : v ≠ RVal.nil) :
    (byKeyOp c (shapeRemote st (RawReply.value v)) op t keys).result
        = Outcome.fail (RError.decode "unexpected type for Values") ∧
    (byKeyOp c (shapeRemote st (RawReply.values [])) op t keys).result
        = Outcome.panicked "runtime error: index out of range" := by
  constructor
  · have hd := doHashOp_healthy c (shapeRemote st (RawReply.value v)) op t keys h
    cases v with
    | nil => exact absurd rfl hv
    | int n =>
      simp only [byKeyOp, multiKeysOp, hd]
      simp [shapeRemote, redisValues]
    | str s =>
      simp only [byKeyOp, multiKeysOp, hd]
      simp [shapeRemote, redisValues]
    | bytes bs =>
      simp only [byKeyOp, multiKeysOp, hd]
      simp [shapeRemote, redisValues]
    | bool b =>
      simp only [byKeyOp, multiKeysOp, hd]
      simp [shapeRemote, redisValues]
  · have hd := doHashOp_healthy c (shapeRemote st (RawReply.values [])) op t keys h
    simp only [byKeyOp, multiKeysOp, hd]
    simp [shapeRemote, redisValues]

theorem byKeyOp_reply_shape_witness :
    freshClient.healthy = true ∧
    RVal.int 7 ≠ RVal.nil ∧
    ((byKeyOp freshClient (shapeRemote [] (RawReply.value (RVal.int 7)))
        opHGet "t" [RVal.str "k"]).result
       = Outcome.fail (RError.decode "unexpected type for Values") ∧
     (byKeyOp freshClient (shapeRemote [] (RawReply.values []))
        opHGet "t" [RVal.str "k"]).result
       = Outcome.panicked "runtime error: index out of range") :=
  ⟨by decide, by decide,
   byKeyOp_reply_shape freshClient [] opHGet "t" [RVal.str "k"] (RVal.int 7)
     (by decide) (by decide)⟩

/-! ### C6: typed reply conversion -/

/-- C6 counterexample: on a raw reply that is not an int64, `LLen` does
not fall back to parsing the reply's string representation — the
unchecked `res.(int64)` assertion panics, even though the string
`"5"` would have parsed. -/
theorem llen_string_reply_panics :
    (freshClient.LLen (shapeRemote [] (RawReply.values [RVal.str "5"])) "t").result
        = Outcome.panicked "interface conversion: interface is not int64" ∧
    parseIntGo "5" = Except.ok 5 := by
  constructor
  · have hd := doHashOp_healthy freshClient
      (shapeRemote [] (RawReply.values [RVal.str "5"])) opLLen "t" [] (by decide)
    simp only [ClientState.LLen, byKeyOp, multiKeysOp, hd]
    simp [shapeRemote, redisValues]
  · rfl

/-- C6 amended: `HLen` and `HExists` convert a directly matching raw
reply and otherwise fall back to parsing its string representation,
propagating the parse outcome; `LLen` and `SIsMember` convert only a
directly matching int64 reply and panic on any other raw type, with no
string-parsing fallback. -/
theorem typed_conversion (c : ClientState) (st : Store) (t : String) (k : RVal)
    (n : Int) (s : String) (h : c.healthy = true) :
    (c.HLen (shapeRemote st (RawReply.values [RVal.int n])) t).result
        = Outcome.ok n ∧
    ((c.HLen (shapeRemote st (RawReply.values [RVal.str s])) t).result
        = match parseIntGo s with
          | Except.ok m => Outcome.ok m
          | Except.error e => Outcome.fail e) ∧
    (c.LLen (shapeRemote st (RawReply.values [RVal.int n])) t).result
        = Outcome.ok n ∧
    (c.LLen (shapeRemote st (RawReply.values [RVal.str s])) t).result
        = Outcome.panicked "interface conversion: interface is not int64" ∧
    (c.SIsMember (shapeRemote st (RawReply.values [RVal.int n])) t k).result
        = Outcome.ok (decide (1 ≤ n)) ∧
    (c.SIsMember (shapeRemote st (RawReply.values [RVal.str s])) t k).result
        = Outcome.panicked "interface conversion: interface is not int64" ∧
    ((c.HExists (shapeRemote st (RawReply.values [RVal.int n])) t k).result
        = match parseBoolGo (sprintfV (RVal.int n)) with
          | Except.ok b => Outcome.ok b
          | Except.error e => Outcome.fail e) := by
  refine ⟨?_, ?_, ?_, ?_, ?_, ?_, ?_⟩
  · have hd := doHashOp_healthy c (shapeRemote st (RawReply.values [RVal.int n]))
      opHLen t [] h
    simp only [ClientState.HLen, hd]
    simp [shapeRemote, redisValues]
  · have hd := doHashOp_healthy c (shapeRemote st (RawReply.values [RVal.str s]))
      opHLen t [] h
    simp only [ClientState.HLen, hd]
    simp [shapeRemote, redisValues, sprintfV]
  · have hd := doHashOp_healthy c (shapeRemote st (RawReply.values [RVal.int n]))
      opLLen t [] h
    simp only [ClientState.LLen, byKeyOp, multiKeysOp, hd]
    simp [shapeRemote, redisValues]
  · have hd := doHashOp_healthy c (shapeRemote st (RawReply.values [RVal.str s]))
      opLLen t [] h
    simp only [ClientState.LLen, byKeyOp, multiKeysOp, hd]
    simp [shapeRemote, redisValues]
  · have hd := doHashOp_healthy c (shapeRemote st (RawReply.values [RVal.int n]))
      opSIsMember t [k] h
    simp only [ClientState.SIsMember, byKeyOp, multiKeysOp, hd]
    simp [shapeRemote, redisValues]
  · have hd := doHashOp_healthy c (shapeRemote st (RawReply.values [RVal.str s]))
      opSIsMember t [k] h
    simp only [ClientState.SIsMember, byKeyOp, multiKeysOp, hd]
    simp [shapeRemote, redisValues]
  · have hd := doHashOp_healthy c (shapeRemote st (RawReply.values [RVal.int n]))
      opHExists t [k] h
    simp only [ClientState.HExists, hd]
    simp [shapeRemote, redisValues]

theorem typed_conversion_witness :
    freshClient.healthy = true ∧
    ((freshClient.HLen (shapeRemote [] (RawReply.values [RVal.int 4])) "t").result
        = Outcome.ok 4 ∧
     ((freshClient.HLen (shapeRemote [] (RawReply.values [RVal.str "9"])) "t").result
        = match parseIntGo "9" with
          | Except.ok m => Outcome.ok m
          | Except.error e => Outcome.fail e) ∧
     (freshClient.LLen (shapeRemote [] (RawReply.values [RVal.int 4])) "t").result
        = Outcome.ok 4 ∧
     (freshClient.LLen (shapeRemote [] (RawReply.values [RVal.str "9"])) "t").result
        = Outcome.panicked "interface conversion: interface is not int64" ∧
     (freshClient.SIsMember (shapeRemote [] (RawReply.values [RVal.int 4])) "t"
          (RVal.str "k")).result
        = Outcome.ok (decide (1 ≤ (4 : Int))) ∧
     (freshClient.SIsMember (shapeRemote [] (RawReply.values [RVal.str "9"])) "t"
          (RVal.str "k")).result
        = Outcome.panicked "interface conversion: interface is not int64" ∧
     ((freshClient.HExists (shapeRemote [] (RawReply.values [RVal.int 4])) "t"
          (RVal.str "k")).result
        = match parseBoolGo (sprintfV (RVal.int 4)) with
          | Except.ok b => Outcome.ok b
          | Except.error e => Outcome.fail e)) :=
  ⟨by decide,
   typed_conversion freshClient [] "t" (RVal.str "k") 4 "9" (by decide)⟩

/-! ### C7: HPop is HGet followed by HDel -/

theorem tableLookup_tableRemove (tbl : Table) (f : String) :
    tableLookup (tableRemove tbl f) f = none := by
  induction tbl with
  | nil => rfl
  | cons kv rest ih =>
    obtain ⟨k, v⟩ := kv
    by_cases hk : k = f
    · simp [tableRemove, hk, ih]
    · simp [tableRemove, tableLookup, hk, ih]

theorem storeTable_storeUpdate (st : Store) (name : String) (tbl : Table) :
    storeTable (storeUpdate st name tbl) name = tbl := by
  induction st with
  | nil => simp [storeUpdate, storeTable]
  | cons e rest ih =>
    obtain ⟨t, old⟩ := e
    by_cases ht : t = name
    · simp [storeUpdate, storeTable, ht]
    · simp [storeUpdate, storeTable, ht, ih]

theorem execCmd_hget (st : Store) (a b : RVal) :
    execCmd st ("HGET", [a, b]) =
      (st,
       match tableLookup (storeTable st (writeArg a)) (writeArg b) with
       | some v => RVal.bytes (strToBytes v)
       | none => RVal.nil) := rfl

theorem execCmd_hdel (st : Store) (a b : RVal) :
    execCmd st ("HDEL", [a, b]) =
      (storeUpdate st (writeArg a)
         (tableRemove (storeTable st (writeArg a)) (writeArg b)),
       RVal.int
         (if (tableLookup (storeTable st (writeArg a)) (writeArg b)).isSome
          then 1 else 0)) := rfl

theorem execCmd_hexists (st : Store) (a b : RVal) :
    execCmd st ("HEXISTS", [a, b]) =
      (st,
       RVal.int
         (if (tableLookup (storeTable st (writeArg a)) (writeArg b)).isSome
          then 1 else 0)) := rfl

theorem writeArg_str (s : String) : writeArg (RVal.str s) = s := rfl

/-- `HGet` on the honest store: reads without modifying, returns the
stored bytes or nil. -/
theorem HGet_healthy (c : ClientState) (st : Store) (t : String) (key : RVal)
    (h : c.healthy = true) :
    c.HGet (redisRemote st) t key =
      { client := { c with curConn := some { err := none }, connMuHeld := false }
        remote := redisRemote st
        trace := [Wire.multi, Wire.send opHGet [RVal.str t, key], Wire.exec]
        result :=
          Outcome.ok
            (match tableLookup (storeTable st t) (writeArg key) with
             | some v => RVal.bytes (strToBytes v)
             | none => RVal.nil) } := by
  have hd := doHashOp_healthy c (redisRemote st) opHGet t [key] h
  simp only [ClientState.HGet, byKeyOp, multiKeysOp, hd]
  simp only [redisRemote, redisExec, execBatch, opHGet, execCmd_hget, redisValues,
    writeArg_str]

/-- `HDel` on the honest store: removes the field, replies with the
number of fields removed. -/
theorem HDel_healthy (c : ClientState) (st : Store) (t : String) (key : RVal)
    (h : c.healthy = true) :
    c.HDel (redisRemote st) t key =
      { client := { c with curConn := some { err := none }, connMuHeld := false }
        remote :=
          redisRemote (storeUpdate st t (tableRemove (storeTable st t) (writeArg key)))
        trace := [Wire.multi, Wire.send opHDel [RVal.str t, key], Wire.exec]
        result :=
          Outcome.ok
            (RVal.int
              (if (tableLookup (storeTable st t) (writeArg key)).isSome
               then 1 else 0)) } := by
  have hd := doHashOp_healthy c (redisRemote st) opHDel t [key] h
  simp only [ClientState.HDel, byKeyOp, multiKeysOp, hd]
  simp only [redisRemote, redisExec, execBatch, opHDel, execCmd_hdel, redisValues,
    writeArg_str]

/-- `HExists` on the honest store: the reply is the int64 0/1, which
falls through the `bool` type assertion to the `ParseBool` fallback. -/
theorem HExists_healthy (c : ClientState) (st : Store) (t : String) (key : RVal)
    (h : c.healthy = true) :
    (c.HExists (redisRemote st) t key).result =
      Outcome.ok (tableLookup (storeTable st t) (writeArg key)).isSome := by
  have hd := doHashOp_healthy c (redisRemote st) opHExists t [key] h
  simp only [ClientState.HExists, hd]
  simp only [redisRemote, redisExec, execBatch, opHExists, execCmd_hexists,
    redisValues, writeArg_str]
  rcases Bool.eq_false_or_eq_true
      ((tableLookup (storeTable st t) (writeArg key)).isSome) with hl | hl <;>
    simp only [hl] <;> rfl

/-- C7: on a healthy client over the honest store, `HPop(T, K)` equals
`HGet(T, K)` followed by `HDel(T, K)` — it returns exactly the value
`HGet` returns, each step is issued as its own `MULTI`/`EXEC` batch
(six wire interactions, two envelopes), and after it `HExists(T, K)`
on the resulting client and store returns false. -/
theorem hpop_is_get_then_del (c : ClientState) (st : Store) (t : String)
    (key : RVal) (h : c.healthy = true) :
    (c.HPop (redisRemote st) t key).result
        = (c.HGet (redisRemote st) t key).result ∧
    (c.HPop (redisRemote st) t key).trace =
      [Wire.multi, Wire.send opHGet [RVal.str t, key], Wire.exec,
       Wire.multi, Wire.send opHDel [RVal.str t, key], Wire.exec] ∧
    (((c.HPop (redisRemote st) t key).client.HExists
        (c.HPop (redisRemote st) t key).remote t key).result
      = Outcome.ok false) := by
  have hg := HGet_healthy c st t key h
  have hmid : ClientState.healthy
      { c with curConn := some { err := none }, connMuHeld := false } = true := by
    simp [ClientState.healthy]
  have hd := HDel_healthy
    { c with curConn := some { err := none }, connMuHeld := false } st t key hmid
  have hpop : c.HPop (redisRemote st) t key =
      { client := { c with curConn := some { err := none }, connMuHeld := false }
        remote :=
          redisRemote (storeUpdate st t (tableRemove (storeTable st t) (writeArg key)))
        trace :=
          [Wire.multi, Wire.send opHGet [RVal.str t, key], Wire.exec,
           Wire.multi, Wire.send opHDel [RVal.str t, key], Wire.exec]
        result :=
          Outcome.ok
            (match tableLookup (storeTable st t) (writeArg key) with
             | some v => RVal.bytes (strToBytes v)
             | none => RVal.nil) } := by
    simp only [ClientState.HPop, hg]
    simp only [hd]
    rfl
  refine ⟨?_, ?_, ?_⟩
  · rw [hpop, hg]
  · rw [hpop]
  · rw [hpop]
    have hx := HExists_healthy
      { c with curConn := some { err := none }, connMuHeld := false }
      (storeUpdate st t (tableRemove (storeTable st t) (writeArg key))) t key hmid
    rw [hx, storeTable_storeUpdate, tableLookup_tableRemove]
    rfl

theorem hpop_is_get_then_del_witness :
    heldHealthyClient.healthy = true ∧
    ((heldHealthyClient.HPop (redisRemote [("t", [("k", "v")])]) "t"
          (RVal.str "k")).result
        = (heldHealthyClient.HGet (redisRemote [("t", [("k", "v")])]) "t"
            (RVal.str "k")).result ∧
     (heldHealthyClient.HPop (redisRemote [("t", [("k", "v")])]) "t"
          (RVal.str "k")).trace =
        [Wire.multi, Wire.send opHGet [RVal.str "t", RVal.str "k"], Wire.exec,
         Wire.multi, Wire.send opHDel [RVal.str "t", RVal.str "k"], Wire.exec] ∧
     (((heldHealthyClient.HPop (redisRemote [("t", [("k", "v")])]) "t"
          (RVal.str "k")).client.HExists
        (heldHealthyClient.HPop (redisRemote [("t", [("k", "v")])]) "t"
          (RVal.str "k")).remote "t" (RVal.str "k")).result
       = Outcome.ok false)) :=
  ⟨by decide,
   hpop_is_get_then_del heldHealthyClient [("t", [("k", "v")])] "t"
     (RVal.str "k") (by decide)⟩

end Redtable
